import Mathlib

/-!
Verification development for the promised-models reactive data-model layer.

Shallow embedding of the settlement engine of `src/lib/model.js`, the
collection membership engine of the collection module, and the persistence
verbs.  Values of attributes are drawn from an arbitrary type `V` with
decidable equality; branch identifiers are natural numbers; attribute names
are strings.  Asynchronous promise chains are collapsed into deterministic
functions: a settlement run is one function call, the joined wait of a round
is an `Except` value, and emitted events / storage calls are returned as
explicit traces.

The Attribute branch store itself (`attribute.js`) is not among the given
sources; its operations (`get`/`set`/`commit`/`revert`/`isChanged`) are
modelled from the spec, section 4.1, as noted on each definition.
-/

set_option linter.unusedVariables false
set_option linter.unusedSectionVars false

/-- Branch id used by the settlement loop, `CALCULATIONS_BRANCH` in model.js
(line 23). -/
def CALCULATIONS_BRANCH : Nat := 0

/-- Branch id unique to each model instance, `this.CHANGE_BRANCH = uniq()` in
model.js (line 37); modelled as a fixed id distinct from the calculations
branch. -/
def CHANGE_BRANCH : Nat := 1

/-- Update an association list at a key, overwriting the existing entry or
appending a new one; models JavaScript property assignment on an object. -/
def updateAssoc {α : Type} : List (Nat × α) → Nat → α → List (Nat × α)
  | [], k, v => [(k, v)]
  | (k', w) :: t, k, v =>
    if k' = k then (k, v) :: t else (k', w) :: updateAssoc t k v

/-- Look up a key in an association list; models JavaScript property read. -/
def lookupAssoc {α : Type} : List (Nat × α) → Nat → Option α
  | [], _ => none
  | (k', w) :: t, k => if k' = k then some w else lookupAssoc t k

/-- Delete a key from an association list; models the JavaScript `delete`
operator. -/
def deleteAssoc {α : Type} : List (Nat × α) → Nat → List (Nat × α)
  | [], _ => []
  | (k', w) :: t, k => if k' = k then deleteAssoc t k else (k', w) :: deleteAssoc t k

/-- Modelled from the spec: a single Attribute of a model (section 4.1 of the
spec; `attribute.js` is not among the sources).  The branch store holds the
current value and named snapshot values; `dflt` is the declared default and
`wasSet` whether the attribute was explicitly seeded, used only by the
`unset`/`isSet` guards. -/
structure AttrState (V : Type) where
  name : String
  current : V
  branches : List (Nat × V)
  dflt : V
  wasSet : Bool
deriving DecidableEq

variable {V : Type} [DecidableEq V]

/-- Modelled from the spec: read a branch snapshot of an attribute. -/
def branchGet (b : Nat) (a : AttrState V) : Option V :=
  lookupAssoc a.branches b

/-- Modelled from the spec: `commit(branch)` copies `current` into
`branches[branch]` and reports whether the stored value actually differed
(spec section 4.1). -/
def commitAttr (b : Nat) (a : AttrState V) : AttrState V × Bool :=
  if branchGet b a = some a.current then (a, false)
  else ({ a with branches := updateAssoc a.branches b a.current }, true)

/-- Modelled from the spec: `isChanged(branch)` holds iff `current` differs
from `branches[branch]` (spec section 3); an uncommitted branch counts as
changed. -/
def isChangedAttrB (b : Nat) (a : AttrState V) : Bool :=
  !(branchGet b a = some a.current)

/-- Modelled from the spec: `set(Value)` mutates `current` and does not touch
branches (spec section 4.1). -/
def setAttr (v : V) (a : AttrState V) : AttrState V :=
  { a with current := v }

/-- State of a Model as far as the settlement loop observes it: the attributes
in schema order, the `_requireMoreCalculations` marker (model.js line 441) and
the `_ready` flag (model.js line 47). -/
structure MState (V : Type) where
  attrs : List (AttrState V)
  requireMore : Bool
  ready : Bool
deriving DecidableEq

/-- Mirrors `isChanged(branch)` of a Model: some attribute is changed relative to the
branch (model.js lines 276-280). -/
def isChangedModel (b : Nat) (m : MState V) : Bool :=
  m.attrs.any (isChangedAttrB b)

/-- Mirrors `commit(branch)` of a Model: commit every attribute (model.js lines
297-311; the `commit` event is not tracked here). -/
def commitModel (b : Nat) (m : MState V) : MState V :=
  { m with attrs := m.attrs.map (fun a => (commitAttr b a).1) }

/-- Reading one attribute value of a model by name, as the `calculate`
callbacks do through the owning model. -/
def modelGet (m : MState V) : String → Option V :=
  fun nm => (m.attrs.find? (fun a => a.name == nm)).map (·.current)

/-- A data object passed to `set`: association of attribute names with either
a value or JavaScript `undefined` (`none`).  A name absent from the list also
reads as `undefined`. -/
def ModelData (V : Type) : Type := List (String × Option V)

/-- Reading `data[name]` from a data object; both an absent key and an
explicit `undefined` value yield `none`. -/
def dataGet (d : ModelData V) (nm : String) : Option V :=
  match d.find? (fun p => p.1 == nm) with
  | some (_, some v) => some v
  | _ => none

/-- The single-argument form of `set` (model.js lines 339-354): iterate the
declared attribute names; a name whose value in the data object is not
`undefined` is set, every other attribute keeps its value; keys of the data
object that are not declared attribute names are never consulted. -/
def setData (d : ModelData V) (m : MState V) : MState V :=
  { m with attrs := m.attrs.map (fun a =>
      match dataGet d a.name with
      | some v => setAttr v a
      | none => a) }

/-- The two-argument form of `set` (model.js lines 349-351): sets the named
attribute if declared, silently does nothing otherwise — never an error. -/
def setOne (nm : String) (v : V) (m : MState V) : MState V :=
  { m with attrs := m.attrs.map (fun a => if a.name == nm then setAttr v a else a) }

/-- Errors raised synchronously by Model accessors. -/
inductive MErr
  | unknownAttribute (nm : String)
deriving DecidableEq

/-- Mirrors `get(attributeName)` (model.js lines 361-364): `_throwMissedAttribute`
raises on an unknown name, otherwise the attribute value is returned. -/
def getM (nm : String) (m : MState V) : Except MErr V :=
  match m.attrs.find? (fun a => a.name == nm) with
  | none => .error (.unknownAttribute nm)
  | some a => .ok a.current

/-- Mirrors `unset(attributeName)` (model.js lines 81-84): raises on an unknown name;
otherwise the attribute is set to its default (the attribute-level action is
modelled from the spec, `attribute.js` being absent). -/
def unsetM (nm : String) (m : MState V) : Except MErr (MState V) :=
  match m.attrs.find? (fun a => a.name == nm) with
  | none => .error (.unknownAttribute nm)
  | some _ => .ok { m with attrs := m.attrs.map (fun a =>
      if a.name == nm then { a with current := a.dflt, wasSet := false } else a) }

/-- Mirrors `isSet(attributeName)` (model.js lines 91-94): raises on an unknown name,
otherwise reports the attribute's was-set flag. -/
def isSetM (nm : String) (m : MState V) : Except MErr Bool :=
  match m.attrs.find? (fun a => a.name == nm) with
  | none => .error (.unknownAttribute nm)
  | some a => .ok a.wasSet

/-- Events emitted by a Model during settlement. -/
inductive Ev
  | change (nm : String)
  | changeAll
deriving DecidableEq

/-- Mirrors `_checkContinueCalculations` (model.js lines 532-534): some attribute is
changed relative to the calculations branch, or more calculations were
requested while the round was in flight. -/
def _checkContinueCalculations (m : MState V) : Bool :=
  isChangedModel CALCULATIONS_BRANCH m || m.requireMore

/-- Applying resolved calculate data: `calculateData && this.set(calculateData)`
(model.js line 527); `none` corresponds to an `undefined` calculateData. -/
def applyCalcData (cd : Option (ModelData V)) (m : MState V) : MState V :=
  match cd with
  | some d => setData d m
  | none => m

/-- Mirrors `_setCalculatedData` (model.js lines 525-530): the resolved calculate
results are applied through `set` only when nothing is changed relative to the
calculations branch and no further calculations were requested; the returned
boolean is the JavaScript truthiness of the return value. -/
def _setCalculatedData (cd : Option (ModelData V)) (m : MState V) : MState V × Bool :=
  if !(_checkContinueCalculations m) then (applyCalcData cd m, true)
  else (m, false)

/-- Mirrors `_triggerEvents` (model.js lines 552-565): when some attribute is changed
relative to the change branch, collect the changed attribute names in schema
order, commit the change branch, and emit one `change:<name>` event per
collected name followed by the bare `change` event; otherwise nothing. -/
def _triggerEvents (m : MState V) : MState V × List Ev :=
  if isChangedModel CHANGE_BRANCH m then
    let changedFileds := (m.attrs.filter (isChangedAttrB CHANGE_BRANCH)).map (·.name)
    (commitModel CHANGE_BRANCH m, changedFileds.map Ev.change ++ [Ev.changeAll])
  else (m, [])

/-- Mirrors `_onCalculateSuccess` without its recursive tail (model.js lines 507-518):
`Sum.inl` means `return this._calculate(++n)` — one more round with the given
state, events already emitted listed — and `Sum.inr` means the round settles
(`this._ready = true` is applied by the loop). -/
def _onCalculateSuccessCore (cd : Option (ModelData V)) (m : MState V) :
    Sum (MState V × List Ev) (MState V × List Ev) :=
  let r := _setCalculatedData cd m
  if !r.2 || _checkContinueCalculations r.1 then Sum.inl (r.1, [])
  else
    let te := _triggerEvents r.1
    if _checkContinueCalculations te.1 then Sum.inl (te.1, te.2)
    else Sum.inr (te.1, te.2)

/-- Parameters of a settlement run: the iteration ceiling `maxCalculations`
(model.js line 435, default 100), the optional `calculate` hook of each
attribute (reading the model, resolving to a value or a rejection), and the
joined outcome of the amend/nested-readiness promises the round collects
(model.js lines 477-489), `none` when no such promise is pending. -/
structure SysP (V : Type) where
  maxCalc : Nat := 100
  calcHook : String → Option ((String → Option V) → Except String V)
  promises : Option (Except String Unit) := none

/-- Step 2 of a round (model.js lines 468-490, `calculate` part): walk the
attributes in schema order; for an attribute exposing `calculate` the hook is
invoked twice — line 472 stores the first result in the unused local
`calculationResult`, line 473 invokes it again and stores that second result
in `calculations[name]`.  Returns the collected results and the invocation
trace (one entry per call). -/
def gatherCalcs (P : SysP V) (m : MState V) :
    List (String × Except String V) × List String :=
  m.attrs.foldl
    (fun acc a =>
      match P.calcHook a.name with
      | some f =>
        let calculationResult := f (modelGet m)
        let second := f (modelGet m)
        (acc.1 ++ [(a.name, second)], acc.2 ++ [a.name, a.name])
      | none => acc)
    ([], [])

/-- Mirrors `Vow.all(calculations)`: resolve all collected calculate results or reject
with the first rejection in schema order. -/
def joinCalcs : List (String × Except String V) → Except String (ModelData V)
  | [] => .ok []
  | (_, .error e) :: _ => .error e
  | (nm, .ok v) :: t =>
    match joinCalcs t with
    | .error e => .error e
    | .ok d => .ok ((nm, some v) :: d)

/-- The joined wait of step 3 (model.js lines 492-499): when there are neither
calculations nor pending promises, `_onCalculateSuccess` is called directly
with an `undefined` calculateData (`.ok none`); otherwise the joined wait
resolves to the calculate data or rejects. -/
def joinAll (P : SysP V) (calcs : List (String × Except String V)) :
    Except String (Option (ModelData V)) :=
  if calcs.isEmpty && P.promises.isNone then .ok none
  else
    match joinCalcs calcs with
    | .error e => .error e
    | .ok cd =>
      match P.promises with
      | some (.error e) => .error e
      | _ => .ok (some cd)

/-- The state a round operates on after its entry bookkeeping: the flags
`_requireMoreCalculations` and `_ready` are cleared (model.js lines 457-458
and 464) and all attributes are committed onto the calculations branch
(model.js line 466). -/
def prepRound (m : MState V) : MState V :=
  commitModel CALCULATIONS_BRANCH { m with requireMore := false, ready := false }

/-- The attribute names still changed relative to the calculations branch,
as listed by `_throwCalculationLoop` (model.js lines 539-550). -/
def changedCalcNames (m : MState V) : List String :=
  (m.attrs.filter (isChangedAttrB CALCULATIONS_BRANCH)).map (·.name)

/-- Failure of a settlement run. -/
inductive SettleErr
  | loop (limit : Nat) (fields : List String)
  | rejected (e : String)
  | fuelExhausted
deriving DecidableEq

/-- The log of one executed round: its iteration number, the calculate
invocation trace of step 2, and the events emitted at its finalization. -/
structure RoundLog where
  n : Nat
  invs : List String
  evs : List Ev
deriving DecidableEq

/-- The outcome of a settlement run: the resolution of the round promise, the
final model state, and the per-round log. -/
structure RoundOut (V : Type) where
  res : Except SettleErr Unit
  state : MState V
  log : List RoundLog

/-- Mirrors `_calculate(n)` (model.js lines 447-500) together with the recursion of
`_onCalculateSuccess`: clear the flags, reject with the loop error when the
iteration ceiling is reached (model.js lines 460-462), otherwise commit the
calculations branch, collect the calculate results (each hook invoked twice,
see `gatherCalcs`), join the asynchronous waits, and either reject, recurse
into round `n+1`, or settle with `_ready = true`.  The structural `fuel`
argument only drives the recursion; `fuelExhausted` is unreachable whenever
`fuel > maxCalc - n`. -/
def _calcLoop (P : SysP V) : Nat → Nat → MState V → RoundOut V
  | 0, _, m => ⟨.error .fuelExhausted, m, []⟩
  | fuel + 1, n, m =>
    let m1 : MState V := { m with requireMore := false, ready := false }
    if P.maxCalc ≤ n then
      ⟨.error (.loop P.maxCalc (changedCalcNames m1)), m1, []⟩
    else
      let m2 := prepRound m
      let gc := gatherCalcs P m2
      match joinAll P gc.1 with
      | .error e => ⟨.error (.rejected e), m2, [⟨n, gc.2, []⟩]⟩
      | .ok cd =>
        match _onCalculateSuccessCore cd m2 with
        | Sum.inl (m3, evs) =>
          let r := _calcLoop P fuel (n + 1) m3
          ⟨r.res, r.state, ⟨n, gc.2, evs⟩ :: r.log⟩
        | Sum.inr (m3, evs) =>
          ⟨.ok (), { m3 with ready := true }, [⟨n, gc.2, evs⟩]⟩

/-- A full settlement run starting at iteration 0, with enough fuel for the
ceiling to fire first. -/
def _calculate (P : SysP V) (m : MState V) : RoundOut V :=
  _calcLoop P (P.maxCalc + 1) 0 m

/-- Externally observable state of a Model around its ready promise: the
settlement state, the resolution of `_readyPromise`, and the errors surfaced
through `console.error` by the failure handler of `calculate` (model.js lines
403-406). -/
structure TopState (V : Type) where
  st : MState V
  readyRes : Except SettleErr Unit
  logged : List SettleErr

/-- The public `calculate` (model.js lines 394-418), with the scheduled
asynchronous run collapsed into a direct call: when the model is ready a new
settlement run starts (the boolean result) and its failure, if any, is both
the rejection of the ready promise and reported through the failure handler
which also restores `_ready = true`; when the model is not ready, only the
`_requireMoreCalculations` marker is set and no new run starts. -/
def calculatePub (P : SysP V) (t : TopState V) : TopState V × Bool :=
  if t.st.ready then
    let r := _calculate P t.st
    match r.res with
    | .ok _ => (⟨r.state, .ok (), t.logged⟩, true)
    | .error e => (⟨{ r.state with ready := true }, .error e, t.logged ++ [e]⟩, true)
  else
    ({ t with st := { t.st with requireMore := true } }, false)

/-! ### Concrete systems used by the closed computations -/

/-- A family of systems with one attribute `a` whose calculate applies `f` to
the current value; when `f` has no fixed point the value never converges. -/
def sysLoopF (f : Nat → Nat) : SysP Nat :=
  { calcHook := fun nm =>
      if nm = "a" then some (fun val => .ok (f ((val "a").getD 0))) else none }

/-- A system with one attribute `a` whose calculate returns the current value:
it converges in the first round. -/
def sysOnce : SysP Nat :=
  { calcHook := fun nm =>
      if nm = "a" then some (fun val => .ok ((val "a").getD 0)) else none }

/-- A system with one attribute `a` whose calculate rejects. -/
def sysReject : SysP Nat :=
  { calcHook := fun nm =>
      if nm = "a" then some (fun _ => .error "boom") else none }

/-- The attribute `a` as the Model constructor leaves it: value 0, change
branch committed (model.js line 66). -/
def attrA0 : AttrState Nat :=
  { name := "a", current := 0, branches := [(CHANGE_BRANCH, 0)], dflt := 0, wasSet := false }

/-- A freshly constructed one-attribute model, ready before its first
settlement run. -/
def m0 : MState Nat := { attrs := [attrA0], requireMore := false, ready := true }

/-- The canonical mid-run shape of the one-attribute model: current value `v`,
change branch at its constructed snapshot, calculations branch at `w`. -/
def stA (v w : Nat) : MState Nat :=
  { attrs := [{ name := "a", current := v,
                branches := [(CHANGE_BRANCH, 0), (CALCULATIONS_BRANCH, w)],
                dflt := 0, wasSet := false }],
    requireMore := false, ready := false }

/-- A one-attribute model with both internal branches committed at the current
value: nothing is changed and no more calculations are requested. -/
def mUnchanged : MState Nat :=
  { attrs := [{ name := "a", current := 0,
                branches := [(CALCULATIONS_BRANCH, 0), (CHANGE_BRANCH, 0)],
                dflt := 0, wasSet := false }],
    requireMore := false, ready := false }

/-- The same settled model with the more-calculations-requested marker set. -/
def mFlagged : MState Nat :=
  { attrs := mUnchanged.attrs, requireMore := true, ready := false }

/-- A two-attribute model whose second attribute `b` is changed relative to
the change branch while `a` is not. -/
def mChEv : MState Nat :=
  { attrs := [{ name := "a", current := 0,
                branches := [(CALCULATIONS_BRANCH, 0), (CHANGE_BRANCH, 0)],
                dflt := 0, wasSet := false },
              { name := "b", current := 2,
                branches := [(CALCULATIONS_BRANCH, 2), (CHANGE_BRANCH, 1)],
                dflt := 0, wasSet := false }],
    requireMore := false, ready := false }


/-! ### Collection membership engine (collection module, `part_000`) -/

/-- The default branch id of a Collection (`DEFAULT_BRANCH`, line 23). -/
def DEFAULT_B : Nat := 0

/-- The previous branch id of a Collection (`PREVIOUS_BRANCH`, line 25). -/
def PREVIOUS_B : Nat := 1

/-- A member model as the membership engine observes it: `ref` stands for the
JavaScript object identity (reference equality), `id` is the identity
attribute value (`none` for a new model), `nested` whether the collection owns
it.  Attribute-level state of members is not tracked by this membership
model. -/
structure CModel where
  ref : Nat
  id : Option Nat
  nested : Bool
deriving DecidableEq

/-- Mirrors `getId()` of a member (model.js lines 73-75). -/
def cGetId (m : CModel) : Option Nat := m.id

/-- Mirrors `isNew()` of a member (model.js lines 106-108). -/
def cIsNew (m : CModel) : Bool := m.id = none

/-- State of a Collection: the ordered membership `_models`, the branch
snapshots `_cacheBranches` of the membership sequence, and the identity index
`_modelsIdsMap` (lines 43-53). -/
structure CState where
  models : List CModel
  cache : List (Nat × List CModel)
  idsMap : List (Nat × CModel)
deriving DecidableEq

/-- Mirrors `_getCacheBranch` (lines 285-289): the snapshot of a branch, created empty
on first access. -/
def getCacheBranch (c : CState) (b : Nat) : List CModel :=
  (lookupAssoc c.cache b).getD []

/-- Mirrors `get(id)` of a Collection (lines 161-163): the identity index entry. -/
def cGet (c : CState) (i : Option Nat) : Option CModel :=
  match i with
  | some k => lookupAssoc c.idsMap k
  | none => none

/-- Collection `commit` restricted to the membership sequence (lines 83-101):
when the branch snapshot is not element-wise reference-equal to `_models`, it
is replaced by a copy of `_models`.  The attribute-level commits of the member
models and the `commit` event are outside this membership model. -/
def cCommit (b : Nat) (c : CState) : CState :=
  if getCacheBranch c b = c.models then c
  else { c with cache := updateAssoc c.cache b c.models }

/-- Mirrors `_addModelReference` restricted to the identity index (lines 368-374):
a non-new model is registered under its identity. -/
def addRef (m : CModel) (c : CState) : CState :=
  match m.id with
  | some k => { c with idsMap := updateAssoc c.idsMap k m }
  | none => c

/-- Mirrors `_removeModelReference` restricted to the identity index (lines 379-393):
a non-new model is removed from the index.  The event un-relay and the
destruction of nested members do not touch the membership state. -/
def removeRef (m : CModel) (c : CState) : CState :=
  match m.id with
  | some k => { c with idsMap := deleteAssoc c.idsMap k }
  | none => c

/-- Mirrors `splice(at, 0, model)`: insert at an index, appending when the index is
beyond the end. -/
def insertAt : Nat → CModel → List CModel → List CModel
  | 0, x, l => x :: l
  | _ + 1, x, [] => [x]
  | k + 1, x, y :: t => y :: insertAt k x t

/-- Mirrors `indexOf` + `splice(at, 1)`: remove the first occurrence. -/
def removeFirst (m : CModel) : List CModel → List CModel
  | [] => []
  | x :: t => if x = m then t else x :: removeFirst m t

/-- The body of the `forEach` inside `add` (lines 225-235) for one entry:
skip when the model is already present by reference equality
(`_isExists`) or when it is not new and a model with its identity is already
indexed (`this.get(model.getId())`); otherwise insert it at the resolved
index (`options.at + index`, or append) and register its reference.  Model
instances pass through `_prepareModel` unchanged (lines 320-330). -/
def addOne (atOpt : Option Nat) (ix : Nat) (c : CState) (m : CModel) : CState :=
  if m ∈ c.models ∨ (¬cIsNew m ∧ (cGet c (cGetId m)).isSome) then c
  else
    let pos := match atOpt with
      | some a => a + ix
      | none => c.models.length
    addRef m { c with models := insertAt pos m c.models }

/-- The indexed `forEach` of `add`. -/
def addAll (atOpt : Option Nat) : Nat → CState → List CModel → CState
  | _, c, [] => c
  | ix, c, m :: rest => addAll atOpt (ix + 1) (addOne atOpt ix c m) rest

/-- Mirrors `add(models, options)` (lines 219-238): commit the `PREVIOUS` branch
first, then insert the entries that pass the duplicate guards. -/
def cAdd (ms : List CModel) (atOpt : Option Nat) (c : CState) : CState :=
  addAll atOpt 0 (cCommit PREVIOUS_B c) ms

/-- The body of the `forEach` inside `remove` (lines 248-252) for one entry:
when present by reference, drop its index entry and splice it out. -/
def removeOne (c : CState) (m : CModel) : CState :=
  if m ∈ c.models then
    { removeRef m c with models := removeFirst m c.models }
  else c

/-- Mirrors `remove(models)` (lines 244-255): commit the `PREVIOUS` branch first,
then remove each present entry. -/
def cRemove (ms : List CModel) (c : CState) : CState :=
  ms.foldl removeOne (cCommit PREVIOUS_B c)

/-- Mirrors `set(models)` (lines 261-279): commit the `PREVIOUS` branch, drop the
references of every outgoing member, replace `_models` by the prepared input,
and register the references of every incoming member.  The `reset` event is
not tracked. -/
def cSet (ms : List CModel) (c : CState) : CState :=
  let c1 := cCommit PREVIOUS_B c
  let c2 := c1.models.foldl (fun acc m => removeRef m acc) c1
  let c3 := { c2 with models := ms }
  ms.foldl (fun acc m => addRef m acc) c3

/-- Mirrors `revert(branch)` restricted to the membership sequence (lines 107-121):
when the branch snapshot differs from `_models`, the snapshot is re-set.  The
attribute-level reverts of the member models do not touch membership. -/
def cRevert (b : Nat) (c : CState) : CState :=
  let cache := getCacheBranch c b
  if cache = c.models then c else cSet cache c

/-! ### Persistence verbs (model.js lines 122-185) -/

/-- The storage operations a Model can delegate to its Storage collaborator. -/
inductive StorageOp
  | insert
  | update
  | find
  | remove
deriving DecidableEq

/-- A Model as the persistence verbs observe it: whether an identity attribute
is declared, the identity value (`getId()`, `none` meaning new), and the
destructed flag. -/
structure PState where
  hasIdAttribute : Bool
  idValue : Option Nat
  destructed : Bool
deriving DecidableEq

/-- Failures of a persistence verb: a synchronous throw for a missing identity
attribute, or the rejected `Model is destructed` outcome of
`_rejectDestructed` (model.js lines 581-587). -/
inductive VerbErr
  | thrownNoId
  | destructed
deriving DecidableEq

/-- Mirrors `save` (model.js lines 122-145): throws without an identity attribute;
rejects through `_rejectDestructed` when destructed, calling no storage
operation; otherwise inserts (new model) or updates, the storage results
being assumed successful. -/
def saveV (m : PState) : Except VerbErr Unit × List StorageOp :=
  if !m.hasIdAttribute then (.error .thrownNoId, [])
  else if m.destructed then (.error .destructed, [])
  else if m.idValue = none then (.ok (), [StorageOp.insert])
  else (.ok (), [StorageOp.update])

/-- Mirrors `fetch` (model.js lines 151-164): throws without an identity attribute;
otherwise waits for readiness and calls `storage.find` — there is no
destructed check on this path. -/
def fetchV (m : PState) : Except VerbErr Unit × List StorageOp :=
  if !m.hasIdAttribute then (.error .thrownNoId, [])
  else (.ok (), [StorageOp.find])

/-- Mirrors `remove` (model.js lines 170-185): a new model is destructed locally with
no storage call; otherwise `storage.remove` is called — there is no destructed
check on this path either. -/
def removeV (m : PState) : Except VerbErr Unit × List StorageOp :=
  if m.idValue = none then (.ok (), [])
  else if !m.hasIdAttribute then (.error .thrownNoId, [])
  else (.ok (), [StorageOp.remove])

/-- A destructed persisted model with a declared identity attribute. -/
def destructedP : PState := { hasIdAttribute := true, idValue := some 1, destructed := true }

/-- An empty collection. -/
def cEmpty : CState := { models := [], cache := [], idsMap := [] }

/-- A persisted record held by one object. -/
def mA : CModel := { ref := 0, id := some 5, nested := false }

/-- The same persisted record (same identity) held by a different object. -/
def mB : CModel := { ref := 1, id := some 5, nested := false }

/-! ## Theorems -/

set_option maxRecDepth 10000

/-- Claim C1: in a settlement round, the resolved calculate results are
applied through `set` exactly when, at the completion of the joined
asynchronous wait, no attribute is changed relative to the calculations
branch and no extra calculations were requested; otherwise the computed
values are discarded without any `set` and `_onCalculateSuccess` starts a
new round with the state untouched. -/
theorem calculated_data_applied_iff_branch_unchanged
    (cd : Option (ModelData V)) (m : MState V) :
    (_checkContinueCalculations m = false →
      _setCalculatedData cd m = (applyCalcData cd m, true)) ∧
    (_checkContinueCalculations m = true →
      _setCalculatedData cd m = (m, false) ∧
      _onCalculateSuccessCore cd m = Sum.inl (m, [])) := by
  constructor
  · intro h
    simp [_setCalculatedData, h]
  · intro h
    have h1 : _setCalculatedData cd m = (m, false) := by
      simp [_setCalculatedData, h]
    exact ⟨h1, by simp [_onCalculateSuccessCore, h1]⟩

/-- Witness for the race guard: with nothing changed the data is applied, and
with the marker set the data is discarded and a new round starts. -/
theorem calculated_data_applied_iff_branch_unchanged_witness :
    _checkContinueCalculations mUnchanged = false ∧
    _setCalculatedData (some [("a", some 7)]) mUnchanged =
      (applyCalcData (some [("a", some 7)]) mUnchanged, true) ∧
    _checkContinueCalculations mFlagged = true ∧
    _onCalculateSuccessCore (some [("a", some 7)]) mFlagged = Sum.inl (mFlagged, []) :=
  ⟨by decide,
   (calculated_data_applied_iff_branch_unchanged (some [("a", some 7)]) mUnchanged).1 (by decide),
   by decide,
   ((calculated_data_applied_iff_branch_unchanged (some [("a", some 7)]) mFlagged).2 (by decide)).2⟩

/-- Claim C4: triggering `calculate` while the model is not ready starts no
new settlement run and only sets the more-calculations-requested marker; and
a set marker makes the in-flight round run one more iteration when its
joined wait completes. -/
theorem calculate_while_settling_sets_flag
    (P : SysP V) (t : TopState V) (cd : Option (ModelData V)) (m : MState V) :
    (t.st.ready = false →
      calculatePub P t = ({ t with st := { t.st with requireMore := true } }, false)) ∧
    (m.requireMore = true →
      _onCalculateSuccessCore cd m = Sum.inl (m, [])) := by
  constructor
  · intro h
    simp [calculatePub, h]
  · intro h
    have hc : _checkContinueCalculations m = true := by
      simp [_checkContinueCalculations, h]
    have h1 : _setCalculatedData cd m = (m, false) := by
      simp [_setCalculatedData, hc]
    simp [_onCalculateSuccessCore, h1, hc]

/-- Witness for the at-most-one-round guard at a concrete busy model. -/
theorem calculate_while_settling_sets_flag_witness :
    calculatePub sysOnce { st := mUnchanged, readyRes := .ok (), logged := [] } =
      ({ st := { mUnchanged with requireMore := true }, readyRes := .ok (), logged := [] }, false) ∧
    _onCalculateSuccessCore none mFlagged = Sum.inl (mFlagged, []) :=
  ⟨(calculate_while_settling_sets_flag sysOnce
      { st := mUnchanged, readyRes := .ok (), logged := [] } none mFlagged).1 rfl,
   (calculate_while_settling_sets_flag sysOnce
      { st := mUnchanged, readyRes := .ok (), logged := [] } none mFlagged).2 rfl⟩

/-- Claim C5 counterexample: `fetch` on a destructed model does invoke the
Storage operation `find` and resolves instead of rejecting — the verb does
not check the destructed flag. -/
theorem fetch_on_destructed_invokes_storage :
    fetchV destructedP = (.ok (), [StorageOp.find]) ∧
    (fetchV destructedP).2 ≠ [] :=
  ⟨rfl, by decide⟩

/-- Claim C5 (amended): `save` on a destructed model fails immediately with
the rejected destructed outcome and performs no Storage operation, while
`fetch` on a destructed model with an identity attribute still calls
`Storage.find`. -/
theorem save_rejects_destructed_without_storage
    (m : PState) (h1 : m.hasIdAttribute = true) (h2 : m.destructed = true) :
    saveV m = (.error .destructed, []) ∧
    fetchV m = (.ok (), [StorageOp.find]) := by
  simp [saveV, fetchV, h1, h2]

/-- Witness for the amended destructed-model behaviour at a concrete model. -/
theorem save_rejects_destructed_without_storage_witness :
    destructedP.hasIdAttribute = true ∧
    destructedP.destructed = true ∧
    saveV destructedP = (.error .destructed, []) :=
  ⟨rfl, rfl, (save_rejects_destructed_without_storage destructedP rfl rfl).1⟩

/-- Claim C6 (the code diverges from it): in the single settlement round of a
converging one-attribute model, the `calculate` hook of attribute `a` is
invoked twice, not once — model.js line 472 stores a first invocation in the
unused local `calculationResult` and line 473 invokes the hook again for the
value that is kept. -/
theorem attribute_calculate_invoked_twice_per_round :
    (_calculate sysOnce m0).log = [{ n := 0, invs := ["a", "a"], evs := [] }] ∧
    (_calculate sysOnce m0).res = .ok () ∧
    (_calculate sysOnce m0).log.foldl (fun k r => k + r.invs.length) 0 = 2 :=
  ⟨by decide, rfl, by decide⟩

/-- Claim C9: a failure of the settlement run is the rejection of the
`ready()` promise, the failure handler returns the model to the ready state
and reports the error even with no caller awaiting; and within a round, a
rejection of the joined wait is the failure of the round. -/
theorem calculation_failure_propagates_to_ready
    (P : SysP V) (t : TopState V) (e : SettleErr)
    (h1 : t.st.ready = true)
    (h2 : (_calculate P t.st).res = .error e) :
    (calculatePub P t).1.readyRes = .error e ∧
    (calculatePub P t).1.st.ready = true ∧
    (calculatePub P t).1.logged = t.logged ++ [e] ∧
    (∀ (fuel n : Nat) (m : MState V) (er : String), ¬ P.maxCalc ≤ n →
      joinAll P (gatherCalcs P (prepRound m)).1 = .error er →
      (_calcLoop P (fuel + 1) n m).res = .error (.rejected er)) := by
  refine ⟨?_, ?_, ?_, ?_⟩
  · simp [calculatePub, h1, h2]
  · simp [calculatePub, h1, h2]
  · simp [calculatePub, h1, h2]
  · intro fuel n m er hn hj
    simp [_calcLoop, hn, hj]

/-- Witness for failure propagation: a rejecting calculate hook rejects the
run, the ready promise and the error report, with the model ready again. -/
theorem calculation_failure_propagates_to_ready_witness :
    m0.ready = true ∧
    (_calculate sysReject m0).res = .error (.rejected "boom") ∧
    (calculatePub sysReject { st := m0, readyRes := .ok (), logged := [] }).1.readyRes =
      .error (.rejected "boom") ∧
    (calculatePub sysReject { st := m0, readyRes := .ok (), logged := [] }).1.st.ready = true ∧
    (calculatePub sysReject { st := m0, readyRes := .ok (), logged := [] }).1.logged =
      ([] : List SettleErr) ++ [.rejected "boom"] :=
  ⟨rfl, rfl,
   (calculation_failure_propagates_to_ready sysReject
      { st := m0, readyRes := .ok (), logged := [] } (.rejected "boom") rfl rfl).1,
   (calculation_failure_propagates_to_ready sysReject
      { st := m0, readyRes := .ok (), logged := [] } (.rejected "boom") rfl rfl).2.1,
   (calculation_failure_propagates_to_ready sysReject
      { st := m0, readyRes := .ok (), logged := [] } (.rejected "boom") rfl rfl).2.2.1⟩

/-- The entry bookkeeping of a round carries the canonical one-attribute shape
to itself with the calculations branch re-committed at the current value. -/
theorem prep_stA (v w : Nat) : prepRound (stA v w) = stA v v := by
  by_cases hw : w = v
  · subst hw
    simp [prepRound, stA, commitModel, commitAttr, branchGet, lookupAssoc,
          CALCULATIONS_BRANCH, CHANGE_BRANCH]
  · simp [prepRound, stA, commitModel, commitAttr, branchGet, lookupAssoc,
          updateAssoc, CALCULATIONS_BRANCH, CHANGE_BRANCH, hw]

/-- One non-final round of the never-converging family: the computed value is
applied, found changed relative to the calculations branch, and a further
round is started on the updated shape. -/
theorem calcLoop_stA_step (f : Nat → Nat) (hf : ∀ x, f x ≠ x)
    (fuel n : Nat) (hn : ¬ (100 ≤ n)) (m : MState Nat) (v : Nat)
    (hprep : prepRound m = stA v v) :
    _calcLoop (sysLoopF f) (fuel + 1) n m =
      { res := (_calcLoop (sysLoopF f) fuel (n + 1) (stA (f v) v)).res,
        state := (_calcLoop (sysLoopF f) fuel (n + 1) (stA (f v) v)).state,
        log := { n := n, invs := ["a", "a"], evs := [] } ::
               (_calcLoop (sysLoopF f) fuel (n + 1) (stA (f v) v)).log } := by
  have hne : v ≠ f v := fun h => hf v h.symm
  have hceil : ¬ ((sysLoopF f).maxCalc ≤ n) := hn
  simp only [_calcLoop]
  rw [if_neg hceil, hprep]
  simp [gatherCalcs, sysLoopF, stA, modelGet, joinAll, joinCalcs,
        _onCalculateSuccessCore, _setCalculatedData, _checkContinueCalculations,
        isChangedModel, isChangedAttrB, branchGet, lookupAssoc, applyCalcData,
        setData, dataGet, setAttr, CALCULATIONS_BRANCH, CHANGE_BRANCH, hne]

/-- With `k` fuel rounds remaining out of the 100-round budget, the
never-converging family ends in the loop rejection naming attribute `a`,
having executed exactly `k` further rounds. -/
theorem calcLoop_stA_loops (f : Nat → Nat) (hf : ∀ x, f x ≠ x) :
    ∀ k : Nat, k ≤ 100 → ∀ v w : Nat, w ≠ v →
      (_calcLoop (sysLoopF f) (k + 1) (100 - k) (stA v w)).res =
        .error (.loop 100 ["a"]) ∧
      (_calcLoop (sysLoopF f) (k + 1) (100 - k) (stA v w)).log.length = k := by
  intro k
  induction k with
  | zero =>
    intro _ v w hw
    constructor
    · simp [_calcLoop, changedCalcNames, stA, isChangedAttrB, branchGet,
            lookupAssoc, CALCULATIONS_BRANCH, CHANGE_BRANCH, sysLoopF, hw]
    · simp [_calcLoop, sysLoopF]
  | succ k ih =>
    intro hk v w hw
    have hn : ¬ ((100:Nat) ≤ 100 - (k + 1)) := by omega
    have hstep := calcLoop_stA_step f hf (k + 1) (100 - (k + 1)) hn (stA v w) v (prep_stA v w)
    rw [hstep]
    have harith : 100 - (k + 1) + 1 = 100 - k := by omega
    rw [harith]
    have ih' := ih (by omega) (f v) v (fun h => hf v h.symm)
    exact ⟨ih'.1, by simp [ih'.2]⟩

/-- Claim C2: a model whose calculate always returns a value unequal to the
current one fails after exactly `maxCalculations` rounds (default 100) with
the loop rejection naming the attribute still changed on the calculations
branch; the rejecting call performs no further round. -/
theorem calculation_loop_fails_after_max_rounds
    (f : Nat → Nat) (hf : ∀ x, f x ≠ x) :
    (_calculate (sysLoopF f) m0).res = .error (.loop 100 ["a"]) ∧
    (_calculate (sysLoopF f) m0).log.length = 100 := by
  have hprep0 : prepRound m0 = stA 0 0 := by decide
  have hn0 : ¬ ((100:Nat) ≤ 0) := by omega
  have hcalc : _calculate (sysLoopF f) m0 = _calcLoop (sysLoopF f) (100 + 1) 0 m0 := rfl
  have hstep := calcLoop_stA_step f hf 100 0 hn0 m0 0 hprep0
  have haux := calcLoop_stA_loops f hf 99 (by omega) (f 0) 0 (fun h => hf 0 h.symm)
  have h99 : (99:Nat) + 1 = 100 := rfl
  have h1 : (100:Nat) - 99 = 1 := rfl
  rw [h99, h1] at haux
  rw [hcalc, hstep]
  exact ⟨haux.1, by simp [haux.2]⟩

/-- Witness for the loop limit: the successor function never has a fixed
point and the run fails with the loop rejection. -/
theorem calculation_loop_fails_after_max_rounds_witness :
    (∀ x : Nat, x + 1 ≠ x) ∧
    (_calculate (sysLoopF (fun x => x + 1)) m0).res = .error (.loop 100 ["a"]) :=
  ⟨fun x => Nat.succ_ne_self x,
   (calculation_loop_fails_after_max_rounds (fun x => x + 1)
     (fun x => Nat.succ_ne_self x)).1⟩

/-- Updating an association list makes the key read back the new value. -/
theorem lookupAssoc_updateAssoc {α : Type} (l : List (Nat × α)) (k : Nat) (v : α) :
    lookupAssoc (updateAssoc l k v) k = some v := by
  induction l with
  | nil => simp [updateAssoc, lookupAssoc]
  | cons p t ih =>
    obtain ⟨k', w⟩ := p
    by_cases h : k' = k
    · simp [updateAssoc, lookupAssoc, h]
    · simp [updateAssoc, lookupAssoc, h, ih]

/-- After committing a branch, an attribute is no longer changed relative to
that branch. -/
theorem isChangedAttrB_commitAttr (b : Nat) (a : AttrState V) :
    isChangedAttrB b ((commitAttr b a).1) = false := by
  unfold commitAttr
  split
  · rename_i h
    simp [isChangedAttrB, h]
  · simp [isChangedAttrB, branchGet, lookupAssoc_updateAssoc]

/-- After committing a branch, a model is no longer changed relative to that
branch. -/
theorem isChangedModel_commitModel (b : Nat) (m : MState V) :
    isChangedModel b (commitModel b m) = false := by
  simp only [isChangedModel, commitModel, List.any_map, List.any_eq_false]
  intro a ha
  simp [Function.comp, isChangedAttrB_commitAttr]

/-- Claim C3: when a settlement round finalizes with some attribute changed
relative to the change branch, the change branch is committed and exactly one
`change:<name>` event per changed attribute is emitted, in schema order with
no duplicates, followed by exactly one bare `change` event; with nothing
changed, no events are emitted.  In both cases nothing is changed relative to
the change branch afterwards. -/
theorem trigger_events_change_emission (m : MState V) :
    (isChangedModel CHANGE_BRANCH m = true →
      _triggerEvents m =
        (commitModel CHANGE_BRANCH m,
         ((m.attrs.filter (isChangedAttrB CHANGE_BRANCH)).map (·.name)).map Ev.change
           ++ [Ev.changeAll])) ∧
    (isChangedModel CHANGE_BRANCH m = false →
      _triggerEvents m = (m, [])) ∧
    ((m.attrs.map (·.name)).Nodup →
      ((m.attrs.filter (isChangedAttrB CHANGE_BRANCH)).map (·.name)).Nodup) ∧
    isChangedModel CHANGE_BRANCH (_triggerEvents m).1 = false := by
  refine ⟨?_, ?_, ?_, ?_⟩
  · intro h
    simp [_triggerEvents, h]
  · intro h
    simp [_triggerEvents, h]
  · intro hn
    exact List.Nodup.sublist ((List.filter_sublist _).map _) hn
  · by_cases h : isChangedModel CHANGE_BRANCH m = true
    · simp [_triggerEvents, h, isChangedModel_commitModel]
    · have h' : isChangedModel CHANGE_BRANCH m = false := by simpa using h
      simp [_triggerEvents, h']

/-- Witness for the change emission at a concrete model whose attribute `b`
alone is changed relative to the change branch. -/
theorem trigger_events_change_emission_witness :
    isChangedModel CHANGE_BRANCH mChEv = true ∧
    _triggerEvents mChEv =
      (commitModel CHANGE_BRANCH mChEv,
       ((mChEv.attrs.filter (isChangedAttrB CHANGE_BRANCH)).map (·.name)).map Ev.change
         ++ [Ev.changeAll]) ∧
    ((mChEv.attrs.filter (isChangedAttrB CHANGE_BRANCH)).map (·.name)).Nodup :=
  ⟨by decide,
   (trigger_events_change_emission mChEv).1 (by decide),
   (trigger_events_change_emission mChEv).2.2.1 (by decide)⟩

/-- Registering a reference only touches the identity index. -/
theorem addRef_models (m : CModel) (c : CState) : (addRef m c).models = c.models := by
  cases h : m.id <;> simp [addRef, h]

/-- Registering a reference leaves the branch snapshots alone. -/
theorem addRef_cache (m : CModel) (c : CState) : (addRef m c).cache = c.cache := by
  cases h : m.id <;> simp [addRef, h]

/-- Dropping a reference leaves the branch snapshots alone. -/
theorem removeRef_cache (m : CModel) (c : CState) : (removeRef m c).cache = c.cache := by
  cases h : m.id <;> simp [removeRef, h]

/-- Committing a collection branch does not move the membership sequence. -/
theorem cCommit_models (b : Nat) (c : CState) : (cCommit b c).models = c.models := by
  unfold cCommit
  split <;> rfl

/-- After a collection commit, the committed branch snapshot is the current
membership sequence. -/
theorem getCacheBranch_cCommit_self (b : Nat) (c : CState) :
    getCacheBranch (cCommit b c) b = c.models := by
  unfold cCommit
  split
  · rename_i h
    exact h
  · simp [getCacheBranch, lookupAssoc_updateAssoc]

/-- A single `add` step never touches the branch snapshots. -/
theorem addOne_cache (atOpt : Option Nat) (ix : Nat) (c : CState) (m : CModel) :
    (addOne atOpt ix c m).cache = c.cache := by
  unfold addOne
  split
  · rfl
  · rw [addRef_cache]

/-- The whole `add` walk never touches the branch snapshots. -/
theorem addAll_cache (atOpt : Option Nat) :
    ∀ (ms : List CModel) (ix : Nat) (c : CState),
      (addAll atOpt ix c ms).cache = c.cache := by
  intro ms
  induction ms with
  | nil => intro ix c; rfl
  | cons m rest ih =>
    intro ix c
    rw [show addAll atOpt ix c (m :: rest) = addAll atOpt (ix + 1) (addOne atOpt ix c m) rest from rfl,
        ih, addOne_cache]

/-- A single `remove` step never touches the branch snapshots. -/
theorem removeOne_cache (c : CState) (m : CModel) : (removeOne c m).cache = c.cache := by
  unfold removeOne
  split
  · show (removeRef m c).cache = c.cache
    exact removeRef_cache m c
  · rfl

/-- The whole `remove` walk never touches the branch snapshots. -/
theorem foldl_removeOne_cache (ms : List CModel) :
    ∀ c : CState, (ms.foldl removeOne c).cache = c.cache := by
  induction ms with
  | nil => intro c; rfl
  | cons m rest ih =>
    intro c
    rw [List.foldl_cons, ih, removeOne_cache]

/-- Dropping the outgoing references of `set` never touches the snapshots. -/
theorem foldl_removeRef_cache (ms : List CModel) :
    ∀ c : CState, (ms.foldl (fun acc m => removeRef m acc) c).cache = c.cache := by
  induction ms with
  | nil => intro c; rfl
  | cons m rest ih =>
    intro c
    rw [List.foldl_cons, ih, removeRef_cache]

/-- Registering the incoming references of `set` never touches the snapshots. -/
theorem foldl_addRef_cache (ms : List CModel) :
    ∀ c : CState, (ms.foldl (fun acc m => addRef m acc) c).cache = c.cache := by
  induction ms with
  | nil => intro c; rfl
  | cons m rest ih =>
    intro c
    rw [List.foldl_cons, ih, addRef_cache]

/-- Registering the incoming references of `set` never moves the membership. -/
theorem foldl_addRef_models (ms : List CModel) :
    ∀ c : CState, (ms.foldl (fun acc m => addRef m acc) c).models = c.models := by
  induction ms with
  | nil => intro c; rfl
  | cons m rest ih =>
    intro c
    rw [List.foldl_cons, ih, addRef_models]

/-- Mirrors `set(models)` installs exactly the prepared input as the membership. -/
theorem cSet_models (ms : List CModel) (c : CState) : (cSet ms c).models = ms := by
  simp only [cSet]
  rw [foldl_addRef_models]

/-- Mirrors `set(models)` leaves the previous membership in the `PREVIOUS` branch. -/
theorem cSet_cachePrev (ms : List CModel) (c : CState) :
    getCacheBranch (cSet ms c) PREVIOUS_B = c.models := by
  simp only [cSet, getCacheBranch]
  rw [foldl_addRef_cache]
  rw [show ({ (cCommit PREVIOUS_B c).models.foldl (fun acc m => removeRef m acc) (cCommit PREVIOUS_B c) with models := ms } : CState).cache = ((cCommit PREVIOUS_B c).models.foldl (fun acc m => removeRef m acc) (cCommit PREVIOUS_B c)).cache from rfl]
  rw [foldl_removeRef_cache]
  exact getCacheBranch_cCommit_self PREVIOUS_B c

/-- Mirrors `add(models)` leaves the previous membership in the `PREVIOUS` branch. -/
theorem cAdd_cachePrev (ms : List CModel) (atOpt : Option Nat) (c : CState) :
    getCacheBranch (cAdd ms atOpt c) PREVIOUS_B = c.models := by
  unfold cAdd getCacheBranch
  rw [addAll_cache]
  exact getCacheBranch_cCommit_self PREVIOUS_B c

/-- Mirrors `remove(models)` leaves the previous membership in the `PREVIOUS` branch. -/
theorem cRemove_cachePrev (ms : List CModel) (c : CState) :
    getCacheBranch (cRemove ms c) PREVIOUS_B = c.models := by
  unfold cRemove getCacheBranch
  rw [foldl_removeOne_cache]
  exact getCacheBranch_cCommit_self PREVIOUS_B c

/-- Claim C8: every mutating collection operation first commits the
`PREVIOUS` branch — after `set`, `add` or `remove` the `PREVIOUS` snapshot is
exactly the previous membership — and therefore a structural `set` followed
by `revert(PREVIOUS)` restores the previous ordered membership exactly. -/
theorem collection_mutators_commit_previous_and_revert_restores
    (c : CState) (ms : List CModel) (atOpt : Option Nat) :
    getCacheBranch (cSet ms c) PREVIOUS_B = c.models ∧
    getCacheBranch (cAdd ms atOpt c) PREVIOUS_B = c.models ∧
    getCacheBranch (cRemove ms c) PREVIOUS_B = c.models ∧
    (cRevert PREVIOUS_B (cSet ms c)).models = c.models := by
  refine ⟨cSet_cachePrev ms c, cAdd_cachePrev ms atOpt c, cRemove_cachePrev ms c, ?_⟩
  unfold cRevert
  rw [cSet_cachePrev]
  by_cases h : c.models = (cSet ms c).models
  · rw [if_pos h]
    exact h.symm
  · rw [if_neg h]
    exact cSet_models _ _

/-- Membership of a spliced-in element. -/
theorem mem_insertAt : ∀ (k : Nat) (x : CModel) (l : List CModel) (a : CModel),
    a ∈ insertAt k x l ↔ a = x ∨ a ∈ l := by
  intro k
  induction k with
  | zero =>
    intro x l a
    simp [insertAt]
  | succ k ih =>
    intro x l a
    cases l with
    | nil => simp [insertAt]
    | cons y t =>
      simp [insertAt, ih x t a]
      tauto

/-- Splicing a fresh element into a duplicate-free list keeps it
duplicate-free. -/
theorem nodup_insertAt : ∀ (k : Nat) (x : CModel) (l : List CModel),
    x ∉ l → l.Nodup → (insertAt k x l).Nodup := by
  intro k
  induction k with
  | zero =>
    intro x l hx hl
    simp [insertAt, hx, hl]
  | succ k ih =>
    intro x l hx hl
    cases l with
    | nil => simp [insertAt]
    | cons y t =>
      simp only [insertAt, List.nodup_cons]
      constructor
      · intro hy
        rcases (mem_insertAt k x t y).mp hy with h | h
        · apply hx
          rw [h]
          exact List.mem_cons_self x t
        · exact (List.nodup_cons.mp hl).1 h
      · exact ih x t (fun hmem => hx (List.mem_cons_of_mem y hmem)) (List.nodup_cons.mp hl).2

/-- A single `add` step preserves duplicate-freedom of the membership: it
either skips or inserts an element the guard proved absent. -/
theorem nodup_addOne (atOpt : Option Nat) (ix : Nat) (c : CState) (m : CModel)
    (h : c.models.Nodup) : ((addOne atOpt ix c m).models).Nodup := by
  unfold addOne
  split
  · exact h
  · rename_i hguard
    push_neg at hguard
    rw [addRef_models]
    exact nodup_insertAt _ m c.models hguard.1 h

/-- The whole `add` walk preserves duplicate-freedom of the membership. -/
theorem nodup_addAll (atOpt : Option Nat) :
    ∀ (ms : List CModel) (ix : Nat) (c : CState),
      c.models.Nodup → ((addAll atOpt ix c ms).models).Nodup := by
  intro ms
  induction ms with
  | nil => intro ix c h; exact h
  | cons m rest ih =>
    intro ix c h
    exact ih (ix + 1) (addOne atOpt ix c m) (nodup_addOne atOpt ix c m h)

/-- Claim C7: `add` keeps every model at most once in the ordered membership —
it skips entries present by reference and non-new entries whose identity is
already indexed — so adding the same persisted record under two different
objects leaves the collection at length 1. -/
theorem collection_add_dedup :
    (∀ (c : CState) (ms : List CModel) (atOpt : Option Nat),
      c.models.Nodup → ((cAdd ms atOpt c).models).Nodup) ∧
    ((cAdd [mB] none (cAdd [mA] none cEmpty)).models).length = 1 := by
  constructor
  · intro c ms atOpt h
    unfold cAdd
    apply nodup_addAll
    rw [cCommit_models]
    exact h
  · decide

/-- Witness for the duplicate guard at a concrete collection. -/
theorem collection_add_dedup_witness :
    cEmpty.models.Nodup ∧ ((cAdd [mA, mB] none cEmpty).models).Nodup :=
  ⟨by decide, collection_add_dedup.1 cEmpty [mA, mB] none (by decide)⟩

/-- Lookup by name commutes with mapping a name-preserving function over the
attribute list. -/
theorem find?_name_map (g : AttrState V → AttrState V)
    (hg : ∀ a, (g a).name = a.name) :
    ∀ (l : List (AttrState V)) (nm : String),
      (l.map g).find? (fun a => a.name == nm) =
        (l.find? (fun a => a.name == nm)).map g := by
  intro l nm
  induction l with
  | nil => simp
  | cons a t ih =>
    by_cases h : a.name = nm
    · rw [List.map_cons,
          List.find?_cons_of_pos _ (by simp [hg, h]),
          List.find?_cons_of_pos _ (by simp [h])]
      rfl
    · rw [List.map_cons,
          List.find?_cons_of_neg _ (by simp [hg, h]),
          List.find?_cons_of_neg _ (by simp [h])]
      exact ih

/-- Claim C10: the single-argument `set` updates exactly the declared
attributes whose name carries a defined value in the data object; every other
attribute keeps its value; a data key naming no declared attribute is ignored
silently and the two-argument `set` of an unknown name is a no-op, whereas
`get`, `unset` and `isSet` raise the unknown-attribute error. -/
theorem set_updates_only_defined_declared_keys
    (m : MState V) (d : ModelData V) (nm : String) (v : V) (x : Option V) :
    (dataGet d nm = none → getM nm (setData d m) = getM nm m) ∧
    (dataGet d nm = some v → (getM nm m).isOk = true →
      getM nm (setData d m) = .ok v) ∧
    ((∀ a ∈ m.attrs, a.name ≠ nm) → setData ((nm, x) :: d) m = setData d m) ∧
    ((∀ a ∈ m.attrs, a.name ≠ nm) → setOne nm v m = m) ∧
    ((∀ a ∈ m.attrs, a.name ≠ nm) →
      getM nm m = .error (.unknownAttribute nm) ∧
      unsetM nm m = .error (.unknownAttribute nm) ∧
      isSetM nm m = .error (.unknownAttribute nm)) := by
  have hg : ∀ a : AttrState V, ((fun (a : AttrState V) => match dataGet d a.name with
      | some w => setAttr w a
      | none => a) a).name = a.name := by
    intro a
    show (match dataGet d a.name with
      | some w => setAttr w a
      | none => a).name = a.name
    cases dataGet d a.name <;> rfl
  have hattrs : (setData d m).attrs = m.attrs.map (fun (a : AttrState V) => match dataGet d a.name with
      | some w => setAttr w a
      | none => a) := rfl
  have hfm := find?_name_map _ hg m.attrs nm
  refine ⟨?_, ?_, ?_, ?_, ?_⟩
  · intro h
    unfold getM
    rw [hattrs, hfm]
    cases hf : m.attrs.find? (fun a => a.name == nm) with
    | none => rfl
    | some a =>
      have hname : a.name = nm := by simpa using List.find?_some hf
      have hda : dataGet d a.name = none := by rw [hname]; exact h
      simp [hda]
  · intro h hok
    unfold getM
    rw [hattrs, hfm]
    cases hf : m.attrs.find? (fun a => a.name == nm) with
    | none =>
      rw [getM, hf] at hok
      simp [Except.isOk, Except.toBool] at hok
    | some a =>
      have hname : a.name = nm := by simpa using List.find?_some hf
      have hda : dataGet d a.name = some v := by rw [hname]; exact h
      simp [hda, setAttr]
  · intro hall
    unfold setData
    congr 1
    apply List.map_congr_left
    intro a ha
    have hd : dataGet ((nm, x) :: d) a.name = dataGet d a.name := by
      unfold dataGet
      rw [List.find?_cons_of_neg _ (by simp [Ne.symm (hall a ha)])]
    rw [hd]
  · intro hall
    unfold setOne
    have hmap : m.attrs.map (fun a => if a.name == nm then setAttr v a else a) = m.attrs := by
      conv_rhs => rw [← List.map_id m.attrs]
      apply List.map_congr_left
      intro a ha
      simp [hall a ha]
    rw [hmap]
  · intro hall
    have hnone : m.attrs.find? (fun a => a.name == nm) = none := by
      rw [List.find?_eq_none]
      intro a ha
      simp [hall a ha]
    exact ⟨by simp [getM, hnone], by simp [unsetM, hnone], by simp [isSetM, hnone]⟩

/-- Witness for the `set` frame property at a concrete model and data object
with one defined declared key, one undefined declared key and one unknown
key. -/
theorem set_updates_only_defined_declared_keys_witness :
    dataGet ([("a", some 7), ("zzz", some 9)] : ModelData Nat) "b" = none ∧
    getM "b" (setData [("a", some 7), ("zzz", some 9)] mChEv) = getM "b" mChEv ∧
    getM "a" (setData [("a", some 7), ("zzz", some 9)] mChEv) = .ok 7 ∧
    setOne "zzz" (5 : Nat) mChEv = mChEv ∧
    getM "zzz" mChEv = .error (.unknownAttribute "zzz") :=
  ⟨by decide,
   (set_updates_only_defined_declared_keys mChEv [("a", some 7), ("zzz", some 9)] "b" 0 none).1
     (by decide),
   (set_updates_only_defined_declared_keys mChEv [("a", some 7), ("zzz", some 9)] "a" 7 none).2.1
     (by decide) (by decide),
   ((set_updates_only_defined_declared_keys mChEv [("a", some 7), ("zzz", some 9)] "zzz" 5 none).2.2.2.1)
     (by decide),
   (((set_updates_only_defined_declared_keys mChEv [("a", some 7), ("zzz", some 9)] "zzz" 5 none).2.2.2.2)
     (by decide)).1⟩
